import Mathlib

/-!
Verification of the `nvml-tool` fan-control core (src/src/main.c) against its
natural-language specification.

The C program's types are embedded as follows: `unsigned int` values are
natural numbers, with the wrap-around of unsigned subtraction and of products
made explicit by reduction modulo `2^32` exactly where the C expression is of
type `unsigned int`.  Arrays with a count are embedded as lists.  Calls into
the NVML library are abstracted as oracle functions supplied by an
environment record, and fallible calls return `Option`.
-/

/-- `2^32`, the modulus of C `unsigned int` arithmetic. -/
def U32 : Nat := 4294967296

/-- The C struct `setpoint_t` (main.c lines 30-33): one knee of the fan
curve, a temperature (`temp`, unsigned) and a duty percentage (`fan`). -/
structure setpoint_t where
  temp : Nat
  fan : Nat
deriving Repr, DecidableEq

/-- The scan of `interpolate_fan_speed` (main.c lines 127-135): find the
first adjacent pair `(lo, hi)` of the setpoint list with
`lo.temp <= t && t <= hi.temp`, scanning from the low end. -/
def interp_find (t : Nat) : List setpoint_t → Option (setpoint_t × setpoint_t)
  | lo :: hi :: rest =>
      if lo.temp ≤ t ∧ t ≤ hi.temp then some (lo, hi)
      else interp_find t (hi :: rest)
  | _ => none

/-- The interpolation expression of main.c lines 129-133, with the C
`unsigned int` arithmetic made explicit: `fan_range` is the wrapping
unsigned subtraction `hi.fan - lo.fan`, the product `fan_range *
temp_offset` is reduced mod `2^32`, as is the final sum.  The
subtractions `hi.temp - lo.temp` and `t - lo.temp` do not wrap because the
scan guard gives `lo.temp ≤ t ≤ hi.temp`.  (If `hi.temp = lo.temp` the C
division is undefined behaviour; Lean's `x / 0 = 0` convention stands in
for it, and theorem `C7_no_div_by_zero` shows that for sorted curves this
case is never the first match, so the convention is never relied on.) -/
def interp_value (t : Nat) (lo hi : setpoint_t) : Nat :=
  (lo.fan + (hi.fan + U32 - lo.fan) % U32 * (t - lo.temp) % U32 / (hi.temp - lo.temp)) % U32

/-- `interpolate_fan_speed` (main.c lines 116-138): clamp below the first
setpoint, clamp above the last, otherwise interpolate on the first
adjacent pair that brackets `t`; the fallback (line 137) returns the first
setpoint's duty. -/
def interpolate_fan_speed (current_temp : Nat) (setpoints : List setpoint_t) : Nat :=
  match setpoints with
  | [] => 0
  | first :: rest =>
    if current_temp ≤ first.temp then first.fan
    else
      let last := rest.getLastD first
      if last.temp ≤ current_temp then last.fan
      else
        match interp_find current_temp (first :: rest) with
        | some (lo, hi) => interp_value current_temp lo hi
        | none => first.fan

/-- Accumulator loop of C `atoi`: consume leading decimal digits. -/
def atoi_digits : List Char → Nat → Nat
  | c :: cs, acc => if c.isDigit then atoi_digits cs (acc * 10 + (c.toNat - 48)) else acc
  | [], acc => acc

/-- C `isspace` in the default locale: space, `\t`, `\n`, `\v` (0x0B),
`\f` (0x0C), `\r` — exactly the characters `atoi` skips before the
number. -/
def c_isspace (c : Char) : Bool :=
  c = ' ' || c = '\t' || c = '\n' || c = '\x0b' || c = '\x0c' || c = '\r'

/-- C `atoi` (as used in main.c lines 83-84): skip leading `isspace`
whitespace, read an optional sign, then leading digits; returns 0 when no
digits follow.  (Overflow of the C `int` result is undefined behaviour
and is not modelled; the claims only involve in-range values.) -/
def atoi (cs : List Char) : Int :=
  let cs2 := cs.dropWhile c_isspace
  match cs2 with
  | '-' :: rest => -(atoi_digits rest 0 : Int)
  | '+' :: rest => (atoi_digits rest 0 : Int)
  | _ => (atoi_digits cs2 0 : Int)

/-- Conversion of a C `int` to `unsigned int`: reduction mod `2^32`
(main.c lines 83-84 assign `atoi` results to `unsigned int`). -/
def toU32 (i : Int) : Nat := (i % (U32 : Int)).toNat

/-- Temperature field of a token: `atoi` on the text before the first `:`
(main.c lines 79-83, `strchr` splits at the first colon). -/
def tok_temp (s : String) : Nat := toU32 (atoi (s.data.takeWhile (· ≠ ':')))

/-- Duty field of a token: `atoi` on the text after the first `:`
(main.c line 84, `atoi(colon + 1)`; `atoi` stops at the next non-digit). -/
def tok_fan (s : String) : Nat := toU32 (atoi ((s.data.dropWhile (· ≠ ':')).tail))

/-- The setpoint a (valid) token parses to (main.c lines 92-93). -/
def parse_tok (s : String) : setpoint_t := ⟨tok_temp s, tok_fan s⟩

/-- A token the collection loop of `parse_setpoints` accepts: non-empty,
not starting with `-`, containing a `:`, positive temperature, duty at
most 100 (main.c lines 76-94). -/
def valid_token (s : String) : Bool :=
  match s.data with
  | [] => false
  | c :: _ => c ≠ '-' && s.data.contains ':' && tok_temp s ≠ 0 && tok_fan s ≤ 100

/-- Collection loop of `parse_setpoints` (main.c lines 76-95).  `remaining`
is `max_setpoints - count`: the loop exits once it reaches 0.  A token
starting with `-` stops the loop; a token without a colon is skipped
(`continue`); a token with zero temperature or duty above 100 fails the
whole parse (`none`); otherwise the setpoint is appended. -/
def parse_setpoints_loop : List String → Nat → List setpoint_t → Option (List setpoint_t)
  | [], _, acc => some acc
  | s :: rest, remaining, acc =>
    if remaining = 0 then some acc
    else
      match s.data with
      | [] => parse_setpoints_loop rest remaining acc
      | c :: _ =>
        if c = '-' then some acc
        else if ¬ s.data.contains ':' then parse_setpoints_loop rest remaining acc
        else if tok_temp s = 0 ∨ 100 < tok_fan s then none
        else parse_setpoints_loop rest (remaining - 1) (acc ++ [parse_tok s])

/-- Inner pass of the sort of `parse_setpoints` (main.c lines 103-111):
the C code runs `for j in i+1..count-1: if (a[i].temp > a[j].temp) swap`.
This threads the current occupant `h` of position `i` through the later
positions: each later element `y` either stays (no swap) or trades places
with the carried element (swap).  Returns the final occupant of position
`i` together with the final contents of the later positions. -/
def inner_pass (h : setpoint_t) : List setpoint_t → setpoint_t × List setpoint_t
  | [] => (h, [])
  | y :: ys =>
    if h.temp > y.temp then
      let p := inner_pass y ys
      (p.1, h :: p.2)
    else
      let p := inner_pass h ys
      (p.1, y :: p.2)

/-- The sort of `parse_setpoints` (main.c lines 102-111), an in-place
exchange sort: for each `i`, the inner pass over `j > i` leaves the
minimum of positions `i..count-1` at position `i`; the outer loop then
moves on to `i+1`.  The outer loop is driven by explicit fuel (one unit
per position, supplied as the list length by `exchange_sort`) so that the
recursion is structural. -/
def exchange_sort_go : Nat → List setpoint_t → List setpoint_t
  | _, [] => []
  | 0, l => l
  | fuel + 1, x :: xs =>
    let p := inner_pass x xs
    p.1 :: exchange_sort_go fuel p.2

def exchange_sort (l : List setpoint_t) : List setpoint_t := exchange_sort_go l.length l

/-- `parse_setpoints` (main.c lines 72-114): run the collection loop
(starting with `count = 0`, i.e. `remaining = max_setpoints`), fail if no
valid setpoint was collected (lines 97-100), then sort (lines 102-111). -/
def parse_setpoints (args : List String) (max_setpoints : Nat) : Option (List setpoint_t) :=
  match parse_setpoints_loop args max_setpoints [] with
  | none => none
  | some l => if l = [] then none else some (exchange_sort l)

/-- NVML calls the fanctl session makes, abstracted as oracles.  `none`
models an NVML return code other than `NVML_SUCCESS`.  `cancel_at = some k`
models SIGINT/SIGTERM delivery at the `running` check that starts cycle
`k` (the handler runs then; truly mid-call delivery is not modelled). -/
structure fanctl_env where
  device_count : Nat
  handle_ok : Nat → Bool
  num_fans_validate : Nat → Option Nat
  num_fans_loop : Nat → Option Nat
  temp_read : Nat → Nat → Option Nat
  set_fan_ok : Nat → Nat → Nat → Bool
  cancel_at : Option Nat

/-- Externally visible fan actuations of a session: setting a fan's duty
(`nvmlDeviceSetFanSpeed_v2`, main.c line 696) and restoring a fan to
automatic policy (`nvmlDeviceSetFanControlPolicy`, main.c line 65). -/
inductive fan_act where
  | setfan (dev fan duty : Nat)
  | restore (dev fan : Nat)
deriving Repr, DecidableEq

/-- Per-device command phase for `CMD_FANCTL` (main.c lines 491-508 and
621-637): an out-of-range index, a failed handle lookup, a failed fan-count
query or a zero fan count each increment `error_count`; otherwise the
device is appended to the controlled set (capped at `MAX_DEVICES = 64`,
line 632). -/
def fanctl_validate_step (env : fanctl_env) (acc : List Nat × Nat) (d : Nat) :
    List Nat × Nat :=
  if env.device_count ≤ d then (acc.1, acc.2 + 1)
  else if ¬ env.handle_ok d then (acc.1, acc.2 + 1)
  else
    match env.num_fans_validate d with
    | none => (acc.1, acc.2 + 1)
    | some 0 => (acc.1, acc.2 + 1)
    | some (_ + 1) => if acc.1.length < 64 then (acc.1 ++ [d], acc.2) else acc

def fanctl_validate (env : fanctl_env) (targets : List Nat) : List Nat × Nat :=
  targets.foldl (fanctl_validate_step env) ([], 0)

/-- The signal handler `signal_handler` (main.c lines 56-70): for every
controlled device whose fan-count query succeeds, set every fan back to
automatic policy; per-call failures are ignored. -/
def signal_restore (env : fanctl_env) (devs : List Nat) : List fan_act :=
  devs.flatMap fun d =>
    match env.num_fans_loop d with
    | some nf => (List.range nf).map (fan_act.restore d)
    | none => []

/-- One cycle's device sweep (main.c lines 674-710): read the temperature
(failure sets `running = 0` and breaks), interpolate the target duty, set
it on every fan of the device (`nvmlDeviceGetNumFans` at line 692 has its
result ignored, leaving `num_fans = 0` on failure); any fan-set failure
sets `running = 0` and breaks after finishing this device's fans.
Returns the actuations issued and whether `running` is still set. -/
def run_cycle_devs (env : fanctl_env) (sps : List setpoint_t) (cycle : Nat) :
    List Nat → List fan_act × Bool
  | [] => ([], true)
  | d :: ds =>
    match env.temp_read cycle d with
    | none => ([], false)
    | some t =>
      let target := interpolate_fan_speed t sps
      let nf := (env.num_fans_loop d).getD 0
      let acts := (List.range nf).map fun f => fan_act.setfan d f target
      if (List.range nf).any (fun f => ¬ env.set_fan_ok cycle d f) then (acts, false)
      else
        let p := run_cycle_devs env sps cycle ds
        (acts ++ p.1, p.2)

/-- The `while (running)` control loop (main.c lines 666-719), unrolled on
fuel (the number of cycles the run is observed for).  If the cancellation
signal arrives, the handler performs the restoration and `running` becomes
0, ending the loop.  If a cycle ends with `running = 0` because of an
in-loop failure, the loop simply exits: no restoration is issued on that
path (the comment at line 718 defers cleanup to the signal handler, which
never ran). -/
def run_loop (env : fanctl_env) (sps : List setpoint_t) (devs : List Nat) :
    Nat → Nat → List fan_act
  | 0, _ => []
  | fuel + 1, cycle =>
    if env.cancel_at = some cycle then signal_restore env devs
    else
      let p := run_cycle_devs env sps cycle devs
      if p.2 then p.1 ++ run_loop env sps devs fuel (cycle + 1)
      else p.1

/-- A whole fanctl session after argument parsing (main.c lines 490-722):
validate every targeted device, start the loop only when at least one
device is controlled and `error_count == 0` (line 647), and exit with
`!!error_count` (line 722).  Returns the actuations issued and the process
exit status. -/
def fanctl_session (env : fanctl_env) (sps : List setpoint_t) (targets : List Nat)
    (fuel : Nat) : List fan_act × Nat :=
  let v := fanctl_validate env targets
  (if 0 < v.1.length ∧ v.2 = 0 then run_loop env sps v.1 fuel 0 else [],
   if v.2 = 0 then 0 else 1)

/-- `main` for the `fanctl` command (main.c lines 433-441 and 621-722):
a setpoint-parse failure prints usage and exits 1 (line 440); otherwise
the session runs with the parsed curve. -/
def fanctl_main (env : fanctl_env) (tokens : List String) (targets : List Nat)
    (fuel : Nat) : List fan_act × Nat :=
  match parse_setpoints tokens 16 with
  | none => ([], 1)
  | some sps => fanctl_session env sps targets fuel

/-- The curve evaluation rule as the specification words it (spec §4.1 and
claim C4): clamp at the extremes, otherwise `lo.duty + (hi.duty - lo.duty)
* (t - lo.temperature) / (hi.temperature - lo.temperature)` on the first
adjacent pair (scanning from the low end) with `lo.temperature <= t <=
hi.temperature` — in exact integer arithmetic, with no unsigned
wrap-around.  Used only to compare the code's `interpolate_fan_speed`
against the specified formula. -/
def spec_duty_for (t : Nat) (sps : List setpoint_t) : Int :=
  match sps with
  | [] => 0
  | first :: rest =>
    if t ≤ first.temp then first.fan
    else if (rest.getLastD first).temp ≤ t then (rest.getLastD first).fan
    else
      match interp_find t (first :: rest) with
      | some (lo, hi) =>
          (lo.fan : Int) +
            ((hi.fan : Int) - (lo.fan : Int)) * ((t : Int) - (lo.temp : Int)) /
              ((hi.temp : Int) - (lo.temp : Int))
      | none => first.fan

/-- A device that passes the pre-loop fanctl validation (main.c lines
494-508 and 621-629): in range, handle obtained, fan-count query
succeeded with a nonzero count. -/
def device_ok (env : fanctl_env) (d : Nat) : Bool :=
  decide (d < env.device_count) && env.handle_ok d &&
    match env.num_fans_validate d with
    | some (_ + 1) => true
    | _ => false

/-- A token the collection loop of `parse_setpoints` rejects with an error
(main.c lines 87-90): it reaches the value check (non-empty, no leading
`-`, contains a colon) and has zero temperature or duty above 100. -/
def invalid_token (s : String) : Bool :=
  match s.data with
  | [] => false
  | c :: _ => c ≠ '-' && s.data.contains ':' && (tok_temp s = 0 || 100 < tok_fan s)

def env_c1 : fanctl_env :=
  ⟨1, fun _ => true, fun _ => some 1, fun _ => some 1, fun _ _ => some 60,
   fun _ _ _ => false, none⟩

def env_c2 : fanctl_env :=
  ⟨1, fun _ => true, fun _ => some 1, fun _ => some 1, fun _ _ => none,
   fun _ _ _ => true, none⟩

def env_c8 : fanctl_env :=
  ⟨2, fun _ => true, fun d => if d = 0 then some 1 else some 0, fun _ => some 1,
   fun _ _ => some 60, fun _ _ _ => true, none⟩

theorem usub_eq_sub {a b : Nat} (hba : b ≤ a) (ha : a < U32) :
    (a + U32 - b) % U32 = a - b := by
  have h3 : a + U32 - b = (a - b) + U32 := by omega
  rw [h3, Nat.add_mod_right, Nat.mod_eq_of_lt (by omega)]

theorem interp_find_guard {t : Nat} : ∀ {l : List setpoint_t} {lo hi : setpoint_t},
    interp_find t l = some (lo, hi) → lo.temp ≤ t ∧ t ≤ hi.temp
  | a :: b :: rest, lo, hi, h => by
      by_cases hc : a.temp ≤ t ∧ t ≤ b.temp
      · simp only [interp_find, if_pos hc, Option.some.injEq, Prod.mk.injEq] at h
        obtain ⟨h1, h2⟩ := h
        subst h1; subst h2; exact hc
      · simp only [interp_find, if_neg hc] at h
        exact interp_find_guard h
  | [], _, _, h => by simp [interp_find] at h
  | [a], _, _, h => by simp [interp_find] at h

theorem interp_find_mem {t : Nat} : ∀ {l : List setpoint_t} {lo hi : setpoint_t},
    interp_find t l = some (lo, hi) → lo ∈ l ∧ hi ∈ l
  | a :: b :: rest, lo, hi, h => by
      by_cases hc : a.temp ≤ t ∧ t ≤ b.temp
      · simp only [interp_find, if_pos hc, Option.some.injEq, Prod.mk.injEq] at h
        obtain ⟨h1, h2⟩ := h
        subst h1; subst h2; simp
      · simp only [interp_find, if_neg hc] at h
        have := interp_find_mem h
        exact ⟨List.mem_cons_of_mem _ this.1, List.mem_cons_of_mem _ this.2⟩
  | [], _, _, h => by simp [interp_find] at h
  | [a], _, _, h => by simp [interp_find] at h

theorem interp_find_chain {t : Nat} {P : setpoint_t → setpoint_t → Prop} :
    ∀ {l : List setpoint_t} {lo hi : setpoint_t},
    List.Chain' P l → interp_find t l = some (lo, hi) → P lo hi
  | a :: b :: rest, lo, hi, hch, h => by
      by_cases hc : a.temp ≤ t ∧ t ≤ b.temp
      · simp only [interp_find, if_pos hc, Option.some.injEq, Prod.mk.injEq] at h
        obtain ⟨h1, h2⟩ := h
        subst h1; subst h2
        exact (List.chain'_cons.mp hch).1
      · simp only [interp_find, if_neg hc] at h
        exact interp_find_chain (List.chain'_cons.mp hch).2 h
  | [], _, _, _, h => by simp [interp_find] at h
  | [a], _, _, _, h => by simp [interp_find] at h

theorem interp_find_strict {t : Nat} :
    ∀ {a : setpoint_t} {l : List setpoint_t} {lo hi : setpoint_t},
    a.temp < t → interp_find t (a :: l) = some (lo, hi) →
    lo.temp < hi.temp ∧ lo.temp < t
  | a, b :: rest, lo, hi, hat, h => by
      by_cases hc : a.temp ≤ t ∧ t ≤ b.temp
      · simp only [interp_find, if_pos hc, Option.some.injEq, Prod.mk.injEq] at h
        obtain ⟨h1, h2⟩ := h
        subst h1; subst h2
        exact ⟨lt_of_lt_of_le hat hc.2, hat⟩
      · simp only [interp_find, if_neg hc] at h
        have hbt : b.temp < t := by
          by_contra hbt
          exact hc ⟨le_of_lt hat, by omega⟩
        exact interp_find_strict hbt h
  | _, [], _, _, _, h => by simp [interp_find] at h

theorem interp_find_exists {t : Nat} :
    ∀ {first : setpoint_t} {rest : List setpoint_t},
    first.temp < t → t < (rest.getLastD first).temp →
    ∃ lo hi, interp_find t (first :: rest) = some (lo, hi)
  | first, [], h1, h2 => absurd (lt_trans h1 h2) (lt_irrefl _)
  | first, b :: rs, h1, h2 => by
      rw [List.getLastD_cons] at h2
      by_cases hc : t ≤ b.temp
      · exact ⟨first, b, by simp [interp_find, le_of_lt h1, hc]⟩
      · have hbt : b.temp < t := by omega
        have ⟨lo, hi, hfind⟩ := interp_find_exists hbt h2
        exact ⟨lo, hi, by
          have hnc : ¬ (first.temp ≤ t ∧ t ≤ b.temp) := fun hh => hc hh.2
          simp only [interp_find, if_neg hnc]
          exact hfind⟩

theorem hundred_lt_U32 : 100 < U32 := by unfold U32; omega

theorem interp_value_bounds {t : Nat} {lo hi : setpoint_t}
    (hfan : lo.fan ≤ hi.fan) (hle : hi.fan ≤ 100) (htlt : lo.temp < hi.temp)
    (h1 : lo.temp ≤ t) (h2 : t ≤ hi.temp) :
    lo.fan ≤ interp_value t lo hi ∧ interp_value t lo hi ≤ hi.fan := by
  have hU := hundred_lt_U32
  unfold interp_value
  have hsub : (hi.fan + U32 - lo.fan) % U32 = hi.fan - lo.fan :=
    usub_eq_sub hfan (by omega)
  rw [hsub]
  have hoff : t - lo.temp ≤ hi.temp - lo.temp := by omega
  have hx : (hi.fan - lo.fan) * (t - lo.temp) % U32 / (hi.temp - lo.temp)
      ≤ hi.fan - lo.fan := by
    calc (hi.fan - lo.fan) * (t - lo.temp) % U32 / (hi.temp - lo.temp)
        ≤ (hi.fan - lo.fan) * (hi.temp - lo.temp) / (hi.temp - lo.temp) := by
          apply Nat.div_le_div_right
          exact le_trans (Nat.mod_le _ _) (Nat.mul_le_mul_left _ hoff)
      _ = hi.fan - lo.fan := Nat.mul_div_cancel _ (by omega)
  rw [Nat.mod_eq_of_lt (by omega)]
  constructor
  · exact Nat.le_add_right _ _
  · omega

theorem interp_value_exact {t : Nat} {lo hi : setpoint_t}
    (hfan : lo.fan ≤ hi.fan) (hle : hi.fan ≤ 100) (htlt : lo.temp < hi.temp)
    (h2 : t ≤ hi.temp)
    (hovf : (hi.fan - lo.fan) * (hi.temp - lo.temp) < U32) :
    interp_value t lo hi =
      lo.fan + (hi.fan - lo.fan) * (t - lo.temp) / (hi.temp - lo.temp) := by
  have hU := hundred_lt_U32
  unfold interp_value
  have hsub : (hi.fan + U32 - lo.fan) % U32 = hi.fan - lo.fan :=
    usub_eq_sub hfan (by omega)
  rw [hsub]
  have hoff : t - lo.temp ≤ hi.temp - lo.temp := by omega
  have hprod : (hi.fan - lo.fan) * (t - lo.temp) < U32 :=
    lt_of_le_of_lt (Nat.mul_le_mul_left _ hoff) hovf
  rw [Nat.mod_eq_of_lt hprod]
  have hx : (hi.fan - lo.fan) * (t - lo.temp) / (hi.temp - lo.temp) ≤ hi.fan - lo.fan := by
    calc (hi.fan - lo.fan) * (t - lo.temp) / (hi.temp - lo.temp)
        ≤ (hi.fan - lo.fan) * (hi.temp - lo.temp) / (hi.temp - lo.temp) :=
          Nat.div_le_div_right (Nat.mul_le_mul_left _ hoff)
      _ = hi.fan - lo.fan := Nat.mul_div_cancel _ (by omega)
  exact Nat.mod_eq_of_lt (by omega)

theorem interp_value_mono {t1 t2 : Nat} {lo hi : setpoint_t}
    (hfan : lo.fan ≤ hi.fan) (hle : hi.fan ≤ 100) (htlt : lo.temp < hi.temp)
    (h12 : t1 ≤ t2) (h2 : t2 ≤ hi.temp)
    (hovf : (hi.fan - lo.fan) * (hi.temp - lo.temp) < U32) :
    interp_value t1 lo hi ≤ interp_value t2 lo hi := by
  rw [interp_value_exact hfan hle htlt (le_trans h12 h2) hovf,
      interp_value_exact hfan hle htlt h2 hovf]
  have : (hi.fan - lo.fan) * (t1 - lo.temp) ≤ (hi.fan - lo.fan) * (t2 - lo.temp) :=
    Nat.mul_le_mul_left _ (by omega)
  exact Nat.add_le_add_left (Nat.div_le_div_right this) _

theorem fan_le_getLastD :
    ∀ {first : setpoint_t} {rest : List setpoint_t} {x : setpoint_t},
    List.Pairwise (fun a b => a.fan ≤ b.fan) (first :: rest) →
    x ∈ first :: rest → x.fan ≤ (rest.getLastD first).fan
  | first, [], x, _, hx => by
      simp only [List.mem_singleton] at hx
      subst hx; simp [List.getLastD]
  | first, b :: rs, x, hp, hx => by
      rw [List.getLastD_cons]
      rcases List.mem_cons.mp hx with h | h
      · subst h
        have hmem : (rs.getLastD b) ∈ b :: rs := List.getLastD_mem_cons rs b
        exact List.rel_of_pairwise_cons hp hmem
      · exact fan_le_getLastD (List.Pairwise.of_cons hp) h

theorem interior_ge_head {t : Nat} {first : setpoint_t} {rest : List setpoint_t}
    {lo hi : setpoint_t}
    (hmono : List.Pairwise (fun a b => a.fan ≤ b.fan) (first :: rest))
    (h100 : ∀ s ∈ first :: rest, s.fan ≤ 100)
    (hat : first.temp < t)
    (hfind : interp_find t (first :: rest) = some (lo, hi)) :
    first.fan ≤ interp_value t lo hi := by
  obtain ⟨g1, g2⟩ := interp_find_guard hfind
  obtain ⟨hstrict, _⟩ := interp_find_strict hat hfind
  obtain ⟨mlo, mhi⟩ := interp_find_mem hfind
  have hlh : lo.fan ≤ hi.fan := interp_find_chain hmono.chain' hfind
  have hlo : first.fan ≤ lo.fan := by
    rcases List.mem_cons.mp mlo with h | h
    · subst h; exact le_refl _
    · exact List.rel_of_pairwise_cons hmono h
  exact le_trans hlo (interp_value_bounds hlh (h100 hi mhi) hstrict g1 g2).1

theorem interior_le_last {t : Nat} {first : setpoint_t} {rest : List setpoint_t}
    {lo hi : setpoint_t}
    (hmono : List.Pairwise (fun a b => a.fan ≤ b.fan) (first :: rest))
    (h100 : ∀ s ∈ first :: rest, s.fan ≤ 100)
    (hat : first.temp < t)
    (hfind : interp_find t (first :: rest) = some (lo, hi)) :
    interp_value t lo hi ≤ (rest.getLastD first).fan := by
  obtain ⟨g1, g2⟩ := interp_find_guard hfind
  obtain ⟨hstrict, _⟩ := interp_find_strict hat hfind
  obtain ⟨mlo, mhi⟩ := interp_find_mem hfind
  have hlh : lo.fan ≤ hi.fan := interp_find_chain hmono.chain' hfind
  exact le_trans (interp_value_bounds hlh (h100 hi mhi) hstrict g1 g2).2
    (fan_le_getLastD hmono mhi)

theorem interp_interior_mono {t1 t2 : Nat} :
    ∀ {first : setpoint_t} {rest : List setpoint_t} {lo1 hi1 lo2 hi2 : setpoint_t},
    List.Pairwise (fun a b => a.fan ≤ b.fan) (first :: rest) →
    (∀ s ∈ first :: rest, s.fan ≤ 100) →
    List.Chain' (fun a b => (b.fan - a.fan) * (b.temp - a.temp) < U32) (first :: rest) →
    first.temp < t1 → t1 ≤ t2 → t2 < (rest.getLastD first).temp →
    interp_find t1 (first :: rest) = some (lo1, hi1) →
    interp_find t2 (first :: rest) = some (lo2, hi2) →
    interp_value t1 lo1 hi1 ≤ interp_value t2 lo2 hi2
  | first, [], lo1, hi1, lo2, hi2, _, _, _, h1, h12, h2last, _, _ => by
      simp only [List.getLastD] at h2last; omega
  | first, b :: rs, lo1, hi1, lo2, hi2, hmono, h100, hovf, hat1, h12, h2last,
      hfind1, hfind2 => by
      rw [List.getLastD_cons] at h2last
      have hfb : first.fan ≤ b.fan :=
        List.rel_of_pairwise_cons hmono (List.mem_cons_self _ _)
      have hb100 : b.fan ≤ 100 := h100 b (by simp)
      by_cases hc1 : t1 ≤ b.temp
      · have hcond1 : first.temp ≤ t1 ∧ t1 ≤ b.temp := ⟨le_of_lt hat1, hc1⟩
        simp only [interp_find, if_pos hcond1, Option.some.injEq, Prod.mk.injEq] at hfind1
        obtain ⟨e1, e2⟩ := hfind1
        subst e1; subst e2
        have htlt : first.temp < b.temp := lt_of_lt_of_le hat1 hc1
        by_cases hc2 : t2 ≤ b.temp
        · have hcond2 : first.temp ≤ t2 ∧ t2 ≤ b.temp := ⟨by omega, hc2⟩
          simp only [interp_find, if_pos hcond2, Option.some.injEq, Prod.mk.injEq] at hfind2
          obtain ⟨e1, e2⟩ := hfind2
          subst e1; subst e2
          exact interp_value_mono hfb hb100 htlt h12 hc2 (List.chain'_cons.mp hovf).1
        · have hcond2 : ¬ (first.temp ≤ t2 ∧ t2 ≤ b.temp) := fun hh => hc2 hh.2
          simp only [interp_find, if_neg hcond2] at hfind2
          have hv1 : interp_value t1 first b ≤ b.fan :=
            (interp_value_bounds hfb hb100 htlt hcond1.1 hc1).2
          have hv2 : b.fan ≤ interp_value t2 lo2 hi2 :=
            interior_ge_head (List.Pairwise.of_cons hmono)
              (fun s hs => h100 s (List.mem_cons_of_mem _ hs)) (by omega) hfind2
          omega
      · have hbt1 : b.temp < t1 := by omega
        have hcond1 : ¬ (first.temp ≤ t1 ∧ t1 ≤ b.temp) := fun hh => hc1 hh.2
        have hcond2 : ¬ (first.temp ≤ t2 ∧ t2 ≤ b.temp) := fun hh => by omega
        simp only [interp_find, if_neg hcond1] at hfind1
        simp only [interp_find, if_neg hcond2] at hfind2
        exact interp_interior_mono (List.Pairwise.of_cons hmono)
          (fun s hs => h100 s (List.mem_cons_of_mem _ hs))
          (List.chain'_cons.mp hovf).2 hbt1 h12 h2last hfind1 hfind2

theorem interpolate_cons (t : Nat) (first : setpoint_t) (rest : List setpoint_t) :
    interpolate_fan_speed t (first :: rest) =
      if t ≤ first.temp then first.fan
      else if (rest.getLastD first).temp ≤ t then (rest.getLastD first).fan
      else match interp_find t (first :: rest) with
        | some (lo, hi) => interp_value t lo hi
        | none => first.fan := rfl

theorem spec_duty_for_cons (t : Nat) (first : setpoint_t) (rest : List setpoint_t) :
    spec_duty_for t (first :: rest) =
      if t ≤ first.temp then (first.fan : Int)
      else if (rest.getLastD first).temp ≤ t then ((rest.getLastD first).fan : Int)
      else match interp_find t (first :: rest) with
        | some (lo, hi) =>
            (lo.fan : Int) +
              ((hi.fan : Int) - (lo.fan : Int)) * ((t : Int) - (lo.temp : Int)) /
                ((hi.temp : Int) - (lo.temp : Int))
        | none => (first.fan : Int) := rfl

/-- Claim C7 (confirmed): for every sorted non-empty curve and every
temperature strictly between the first and last setpoint temperatures (the
only way the interior scan of `interpolate_fan_speed` is reached), the
scan finds a first bracketing pair, and that pair has strictly increasing
temperatures — the division `(fan_range * temp_offset) / temp_range`
never divides by zero, even when the curve contains duplicate
temperatures. -/
theorem C7_no_div_by_zero (first : setpoint_t) (rest : List setpoint_t) (t : Nat)
    (_hsort : List.Pairwise (fun a b => a.temp ≤ b.temp) (first :: rest))
    (h1 : first.temp < t) (h2 : t < (rest.getLastD first).temp) :
    ∃ lo hi, interp_find t (first :: rest) = some (lo, hi) ∧ lo.temp < hi.temp := by
  obtain ⟨lo, hi, hf⟩ := interp_find_exists h1 h2
  exact ⟨lo, hi, hf, (interp_find_strict h1 hf).1⟩

theorem C7_no_div_by_zero_witness :
    List.Pairwise (fun a b : setpoint_t => a.temp ≤ b.temp)
      [⟨50, 30⟩, ⟨70, 60⟩, ⟨70, 80⟩, ⟨90, 10⟩] ∧
    (50 : Nat) < 70 ∧ (70 : Nat) < 90 ∧
    ∃ lo hi, interp_find 70 [⟨50, 30⟩, ⟨70, 60⟩, ⟨70, 80⟩, ⟨90, 10⟩] = some (lo, hi) ∧
      lo.temp < hi.temp :=
  ⟨by decide, by decide, by decide,
   C7_no_div_by_zero ⟨50, 30⟩ [⟨70, 60⟩, ⟨70, 80⟩, ⟨90, 10⟩] 70 (by decide)
     (by decide) (by decide)⟩

/-- Claim C3, amended (the original claim fails for duty-decreasing
curves, see `C3_counterexample`): for every valid curve — sorted, duties
in [0,100] — whose duties are non-decreasing in sorted order,
`interpolate_fan_speed` returns a duty in [0,100] for every input
temperature.  (Totality and determinism hold for all curves: the
embedding is a Lean function.) -/
theorem C3_duty_in_range (l : List setpoint_t)
    (_hsort : List.Pairwise (fun a b => a.temp ≤ b.temp) l)
    (h100 : ∀ s ∈ l, s.fan ≤ 100)
    (hmono : List.Pairwise (fun a b => a.fan ≤ b.fan) l)
    (t : Nat) : interpolate_fan_speed t l ≤ 100 := by
  cases l with
  | nil => simp [interpolate_fan_speed]
  | cons first rest =>
    rw [interpolate_cons]
    by_cases hb1 : t ≤ first.temp
    · rw [if_pos hb1]; exact h100 first (by simp)
    · rw [if_neg hb1]
      by_cases hb2 : (rest.getLastD first).temp ≤ t
      · rw [if_pos hb2]
        exact h100 _ (List.getLastD_mem_cons rest first)
      · rw [if_neg hb2]
        cases hfind : interp_find t (first :: rest) with
        | none => exact h100 first (by simp)
        | some p =>
          obtain ⟨lo, hi⟩ := p
          obtain ⟨g1, g2⟩ := interp_find_guard hfind
          obtain ⟨hstrict, _⟩ := interp_find_strict (by omega) hfind
          have hlh : lo.fan ≤ hi.fan := interp_find_chain hmono.chain' hfind
          have hhi : hi.fan ≤ 100 := h100 hi (interp_find_mem hfind).2
          exact le_trans (interp_value_bounds hlh hhi hstrict g1 g2).2 hhi

theorem C3_duty_in_range_witness :
    List.Pairwise (fun a b : setpoint_t => a.temp ≤ b.temp)
      [⟨50, 30⟩, ⟨70, 60⟩, ⟨80, 90⟩] ∧
    interpolate_fan_speed 60 [⟨50, 30⟩, ⟨70, 60⟩, ⟨80, 90⟩] ≤ 100 :=
  ⟨by decide,
   C3_duty_in_range [⟨50, 30⟩, ⟨70, 60⟩, ⟨80, 90⟩] (by decide) (by decide)
     (by decide) 60⟩

/-- Claim C3, counterexample: the curve `[(50,100),(70,0)]` is valid by
the claim's own definition (non-empty, sorted, duties in [0,100]), yet at
temperature 60 the code returns 214748414: the unsigned subtraction
`hi.fan - lo.fan = 0 - 100` wraps modulo `2^32`, so the result is far
outside [0,100]. -/
theorem C3_counterexample :
    interpolate_fan_speed 60 [⟨50, 100⟩, ⟨70, 0⟩] = 214748414 ∧
    ¬ interpolate_fan_speed 60 [⟨50, 100⟩, ⟨70, 0⟩] ≤ 100 := by
  constructor <;> decide

/-- Claim C9, amended (the original claim fails when an interval's
`fan_range * temp_offset` product overflows `unsigned int`, see
`C9_counterexample`): for every valid curve with duties non-decreasing in
sorted temperature order such that additionally every adjacent pair
satisfies `(hi.fan - lo.fan) * (hi.temp - lo.temp) < 2^32` (no product
overflow — true of every realistic curve, e.g. whenever temperatures stay
below 42949673), `interpolate_fan_speed` is monotone non-decreasing in the
temperature. -/
theorem C9_monotone (l : List setpoint_t)
    (_hsort : List.Pairwise (fun a b => a.temp ≤ b.temp) l)
    (hmono : List.Pairwise (fun a b => a.fan ≤ b.fan) l)
    (h100 : ∀ s ∈ l, s.fan ≤ 100)
    (hovf : List.Chain' (fun a b => (b.fan - a.fan) * (b.temp - a.temp) < U32) l)
    (t1 t2 : Nat) (h12 : t1 ≤ t2) :
    interpolate_fan_speed t1 l ≤ interpolate_fan_speed t2 l := by
  cases l with
  | nil => simp [interpolate_fan_speed]
  | cons first rest =>
    rw [interpolate_cons, interpolate_cons]
    have hfirstL : first.fan ≤ (rest.getLastD first).fan :=
      fan_le_getLastD hmono (by simp)
    by_cases hb1 : t1 ≤ first.temp
    · rw [if_pos hb1]
      by_cases hb2 : t2 ≤ first.temp
      · rw [if_pos hb2]
      · rw [if_neg hb2]
        by_cases hc2 : (rest.getLastD first).temp ≤ t2
        · rw [if_pos hc2]; exact hfirstL
        · rw [if_neg hc2]
          obtain ⟨lo, hi, hf⟩ := interp_find_exists
            (show first.temp < t2 by omega) (show t2 < (rest.getLastD first).temp by omega)
          rw [hf]
          exact interior_ge_head hmono h100 (by omega) hf
    · rw [if_neg hb1]
      by_cases hc1 : (rest.getLastD first).temp ≤ t1
      · rw [if_pos hc1,
            if_neg (show ¬ t2 ≤ first.temp by omega),
            if_pos (show (rest.getLastD first).temp ≤ t2 by omega)]
      · rw [if_neg hc1]
        obtain ⟨lo1, hi1, hf1⟩ := interp_find_exists
          (show first.temp < t1 by omega) (show t1 < (rest.getLastD first).temp by omega)
        rw [hf1]
        rw [if_neg (show ¬ t2 ≤ first.temp by omega)]
        by_cases hc2 : (rest.getLastD first).temp ≤ t2
        · rw [if_pos hc2]
          exact interior_le_last hmono h100 (by omega) hf1
        · rw [if_neg hc2]
          obtain ⟨lo2, hi2, hf2⟩ := interp_find_exists
            (show first.temp < t2 by omega) (show t2 < (rest.getLastD first).temp by omega)
          rw [hf2]
          exact interp_interior_mono hmono h100 hovf (by omega) h12 (by omega) hf1 hf2

theorem C9_monotone_witness :
    List.Chain' (fun a b : setpoint_t => (b.fan - a.fan) * (b.temp - a.temp) < U32)
      [⟨50, 30⟩, ⟨70, 60⟩, ⟨80, 90⟩] ∧
    interpolate_fan_speed 60 [⟨50, 30⟩, ⟨70, 60⟩, ⟨80, 90⟩] ≤
      interpolate_fan_speed 75 [⟨50, 30⟩, ⟨70, 60⟩, ⟨80, 90⟩] := by
  have hovf : List.Chain' (fun a b : setpoint_t => (b.fan - a.fan) * (b.temp - a.temp) < U32)
      [⟨50, 30⟩, ⟨70, 60⟩, ⟨80, 90⟩] := by
    simp only [List.chain'_cons, List.chain'_singleton, and_true]
    refine ⟨?_, ?_⟩ <;> (unfold U32; omega)
  exact ⟨hovf,
    C9_monotone [⟨50, 30⟩, ⟨70, 60⟩, ⟨80, 90⟩] (by decide) (by decide) (by decide)
      hovf 60 75 (by decide)⟩

/-- Claim C9, counterexample: the curve `[(1,0),(50000000,100)]` is valid
and has non-decreasing duties, yet the duty drops from 85 at temperature
42949673 to 0 at temperature 42949674: the product `fan_range *
temp_offset = 100 * 42949673` overflows `unsigned int`, so the claimed
monotonicity fails on the code. -/
theorem C9_counterexample :
    interpolate_fan_speed 42949673 [⟨1, 0⟩, ⟨50000000, 100⟩] = 85 ∧
    interpolate_fan_speed 42949674 [⟨1, 0⟩, ⟨50000000, 100⟩] = 0 ∧
    (42949673 : Nat) ≤ 42949674 ∧
    ¬ interpolate_fan_speed 42949673 [⟨1, 0⟩, ⟨50000000, 100⟩] ≤
        interpolate_fan_speed 42949674 [⟨1, 0⟩, ⟨50000000, 100⟩] := by
  refine ⟨by decide, by decide, by decide, by decide⟩

/-- Claim C4, amended (the original universal formula fails when the
unsigned arithmetic wraps, see `C4_counterexample`): for every valid
curve with non-decreasing duties and no adjacent-pair product overflow,
`interpolate_fan_speed` computes exactly the specified formula — clamp at
the extremes, and `lo.duty + (hi.duty - lo.duty) * (t - lo.temp) /
(hi.temp - lo.temp)` in exact integer arithmetic on the first bracketing
pair otherwise.  In particular all six example values of the claim hold.
-/
theorem C4_formula (l : List setpoint_t)
    (_hsort : List.Pairwise (fun a b => a.temp ≤ b.temp) l)
    (hmono : List.Pairwise (fun a b => a.fan ≤ b.fan) l)
    (h100 : ∀ s ∈ l, s.fan ≤ 100)
    (hovf : List.Chain' (fun a b => (b.fan - a.fan) * (b.temp - a.temp) < U32) l)
    (t : Nat) : (interpolate_fan_speed t l : Int) = spec_duty_for t l := by
  cases l with
  | nil => simp [interpolate_fan_speed, spec_duty_for]
  | cons first rest =>
    rw [interpolate_cons, spec_duty_for_cons]
    by_cases hb1 : t ≤ first.temp
    · rw [if_pos hb1, if_pos hb1]
    · rw [if_neg hb1, if_neg hb1]
      by_cases hb2 : (rest.getLastD first).temp ≤ t
      · rw [if_pos hb2, if_pos hb2]
      · rw [if_neg hb2, if_neg hb2]
        cases hfind : interp_find t (first :: rest) with
        | none => rfl
        | some p =>
          obtain ⟨lo, hi⟩ := p
          obtain ⟨g1, g2⟩ := interp_find_guard hfind
          obtain ⟨hstrict, _⟩ := interp_find_strict (by omega) hfind
          have hlh : lo.fan ≤ hi.fan := interp_find_chain hmono.chain' hfind
          have hhi : hi.fan ≤ 100 := h100 hi (interp_find_mem hfind).2
          have hpo : (hi.fan - lo.fan) * (hi.temp - lo.temp) < U32 :=
            interp_find_chain hovf hfind
          show (interp_value t lo hi : Int) =
            (lo.fan : Int) +
              ((hi.fan : Int) - (lo.fan : Int)) * ((t : Int) - (lo.temp : Int)) /
                ((hi.temp : Int) - (lo.temp : Int))
          rw [interp_value_exact hlh hhi hstrict g2 hpo]
          rw [Nat.cast_add, Int.ofNat_ediv, Nat.cast_mul,
              Nat.cast_sub hlh, Nat.cast_sub g1, Nat.cast_sub (le_of_lt hstrict)]

theorem C4_formula_witness :
    interpolate_fan_speed 60 [⟨50, 30⟩, ⟨70, 60⟩, ⟨80, 90⟩] = 45 ∧
    (interpolate_fan_speed 60 [⟨50, 30⟩, ⟨70, 60⟩, ⟨80, 90⟩] : Int) =
      spec_duty_for 60 [⟨50, 30⟩, ⟨70, 60⟩, ⟨80, 90⟩] := by
  have hovf : List.Chain' (fun a b : setpoint_t => (b.fan - a.fan) * (b.temp - a.temp) < U32)
      [⟨50, 30⟩, ⟨70, 60⟩, ⟨80, 90⟩] := by
    simp only [List.chain'_cons, List.chain'_singleton, and_true]
    refine ⟨?_, ?_⟩ <;> (unfold U32; omega)
  exact ⟨by decide,
    C4_formula [⟨50, 30⟩, ⟨70, 60⟩, ⟨80, 90⟩] (by decide) (by decide) (by decide) hovf 60⟩

/-- Claim C4, counterexample: for the valid curve `[(50,100),(70,0)]` at
temperature 65 the specified formula yields `100 + (0-100)*15/20 = 25`,
but the code computes 214748389 (the unsigned subtraction `0 - 100`
wraps), so the claimed universal equality with the formula fails. -/
theorem C4_counterexample :
    spec_duty_for 65 [⟨50, 100⟩, ⟨70, 0⟩] = 25 ∧
    (interpolate_fan_speed 65 [⟨50, 100⟩, ⟨70, 0⟩] : Int) = 214748389 ∧
    ¬ (interpolate_fan_speed 65 [⟨50, 100⟩, ⟨70, 0⟩] : Int) =
        spec_duty_for 65 [⟨50, 100⟩, ⟨70, 0⟩] := by
  refine ⟨by decide, by decide, by decide⟩

theorem inner_pass_length (h : setpoint_t) (l : List setpoint_t) :
    (inner_pass h l).2.length = l.length := by
  induction l generalizing h with
  | nil => rfl
  | cons y ys ih =>
    by_cases hc : h.temp > y.temp <;> simp [inner_pass, hc, ih]

theorem inner_pass_perm (h : setpoint_t) (l : List setpoint_t) :
    List.Perm ((inner_pass h l).1 :: (inner_pass h l).2) (h :: l) := by
  induction l generalizing h with
  | nil => exact List.Perm.refl _
  | cons y ys ih =>
    by_cases hc : h.temp > y.temp
    · simp only [inner_pass, if_pos hc]
      exact (List.Perm.swap h (inner_pass y ys).1 (inner_pass y ys).2).trans
        (List.Perm.cons h (ih y))
    · simp only [inner_pass, if_neg hc]
      exact (List.Perm.swap y (inner_pass h ys).1 (inner_pass h ys).2).trans
        ((List.Perm.cons y (ih h)).trans (List.Perm.swap h y ys))

theorem inner_pass_min (h : setpoint_t) (l : List setpoint_t) :
    (inner_pass h l).1.temp ≤ h.temp ∧
    ∀ z ∈ (inner_pass h l).2, (inner_pass h l).1.temp ≤ z.temp := by
  induction l generalizing h with
  | nil => exact ⟨le_refl _, by simp [inner_pass]⟩
  | cons y ys ih =>
    by_cases hc : h.temp > y.temp
    · simp only [inner_pass, if_pos hc]
      obtain ⟨ih1, ih2⟩ := ih y
      refine ⟨by omega, ?_⟩
      intro z hz
      rcases List.mem_cons.mp hz with hz | hz
      · subst hz; omega
      · exact ih2 z hz
    · simp only [inner_pass, if_neg hc]
      obtain ⟨ih1, ih2⟩ := ih h
      refine ⟨ih1, ?_⟩
      intro z hz
      rcases List.mem_cons.mp hz with hz | hz
      · subst hz; omega
      · exact ih2 z hz

theorem exchange_sort_go_perm :
    ∀ (fuel : Nat) (l : List setpoint_t), l.length ≤ fuel →
    List.Perm (exchange_sort_go fuel l) l
  | _, [], _ => by simp [exchange_sort_go]
  | 0, x :: xs, hlen => by simp at hlen
  | fuel + 1, x :: xs, hlen => by
      simp only [exchange_sort_go]
      have hlen2 : (inner_pass x xs).2.length ≤ fuel := by
        rw [inner_pass_length]
        simpa using Nat.le_of_succ_le_succ hlen
      exact List.Perm.trans
        (List.Perm.cons _ (exchange_sort_go_perm fuel (inner_pass x xs).2 hlen2))
        (inner_pass_perm x xs)

theorem exchange_sort_go_sorted :
    ∀ (fuel : Nat) (l : List setpoint_t), l.length ≤ fuel →
    List.Pairwise (fun a b => a.temp ≤ b.temp) (exchange_sort_go fuel l)
  | _, [], _ => by simp [exchange_sort_go]
  | 0, x :: xs, hlen => by simp at hlen
  | fuel + 1, x :: xs, hlen => by
      simp only [exchange_sort_go]
      have hlen2 : (inner_pass x xs).2.length ≤ fuel := by
        rw [inner_pass_length]
        simpa using Nat.le_of_succ_le_succ hlen
      refine List.Pairwise.cons ?_ (exchange_sort_go_sorted fuel _ hlen2)
      intro z hz
      exact (inner_pass_min x xs).2 z
        ((exchange_sort_go_perm fuel _ hlen2).mem_iff.mp hz)

theorem exchange_sort_perm (l : List setpoint_t) : List.Perm (exchange_sort l) l :=
  exchange_sort_go_perm l.length l (le_refl _)

theorem exchange_sort_sorted (l : List setpoint_t) :
    List.Pairwise (fun a b => a.temp ≤ b.temp) (exchange_sort l) :=
  exchange_sort_go_sorted l.length l (le_refl _)

theorem valid_token_parts {s : String} (hv : valid_token s = true) :
    ∃ c cs, s.data = c :: cs ∧ (c = '-') = False ∧ s.data.contains ':' = true ∧
      ¬ (tok_temp s = 0 ∨ 100 < tok_fan s) := by
  unfold valid_token at hv
  cases hd : s.data with
  | nil => rw [hd] at hv; simp at hv
  | cons c cs =>
    rw [hd] at hv
    simp only [Bool.and_eq_true, decide_eq_true_eq, bne_iff_ne, ne_eq,
      Nat.not_lt, decide_eq_true_eq] at hv
    refine ⟨c, cs, rfl, by simp [hv.1.1.1], hv.1.1.2, ?_⟩
    push_neg
    exact ⟨hv.1.2, by omega⟩

theorem parse_loop_all_valid :
    ∀ (l : List String) (remaining : Nat) (acc : List setpoint_t),
    (∀ s ∈ l, valid_token s) → l.length ≤ remaining →
    parse_setpoints_loop l remaining acc = some (acc ++ l.map parse_tok)
  | [], remaining, acc, _, _ => by simp [parse_setpoints_loop]
  | s :: rest, remaining, acc, hvalid, hlen => by
      obtain ⟨c, cs, hd, hdash, hcolon, hval⟩ := valid_token_parts (hvalid s (by simp))
      have hrem : ¬ remaining = 0 := by simp at hlen; omega
      have hcolon2 : (c :: cs).contains ':' = true := by rw [← hd]; exact hcolon
      rw [parse_setpoints_loop, if_neg hrem]
      simp only [hd]
      rw [if_neg (by simp [hdash]), if_neg (not_not_intro hcolon2), if_neg hval]
      rw [parse_loop_all_valid rest (remaining - 1) (acc ++ [parse_tok s])
        (fun x hx => hvalid x (by simp [hx])) (by simp at hlen ⊢; omega)]
      simp

theorem parse_loop_full :
    ∀ (ts post : List String) (remaining : Nat) (acc : List setpoint_t),
    (∀ s ∈ ts, valid_token s) → ts.length = remaining →
    parse_setpoints_loop (ts ++ post) remaining acc = some (acc ++ ts.map parse_tok)
  | [], post, remaining, acc, _, hlen => by
      simp only [List.length_nil] at hlen
      cases post with
      | nil => simp [parse_setpoints_loop]
      | cons s rest => rw [← hlen]; simp [parse_setpoints_loop]
  | s :: ts, post, remaining, acc, hvalid, hlen => by
      obtain ⟨c, cs, hd, hdash, hcolon, hval⟩ := valid_token_parts (hvalid s (by simp))
      have hrem : ¬ remaining = 0 := by simp at hlen; omega
      have hcolon2 : (c :: cs).contains ':' = true := by rw [← hd]; exact hcolon
      rw [List.cons_append, parse_setpoints_loop, if_neg hrem]
      simp only [hd]
      rw [if_neg (by simp [hdash]), if_neg (not_not_intro hcolon2), if_neg hval]
      rw [parse_loop_full ts post (remaining - 1) (acc ++ [parse_tok s])
        (fun x hx => hvalid x (by simp [hx])) (by simp at hlen ⊢; omega)]
      simp

theorem parse_loop_invalid {bad : String} (hbad : invalid_token bad = true) :
    ∀ (pre : List String) (post : List String) (remaining : Nat) (acc : List setpoint_t),
    (∀ s ∈ pre, valid_token s) → pre.length < remaining →
    parse_setpoints_loop (pre ++ bad :: post) remaining acc = none
  | [], post, remaining, acc, _, hlen => by
      unfold invalid_token at hbad
      cases hd : bad.data with
      | nil => rw [hd] at hbad; simp at hbad
      | cons c cs =>
        rw [hd] at hbad
        simp only [Bool.and_eq_true, Bool.or_eq_true, decide_eq_true_eq, bne_iff_ne,
          ne_eq] at hbad
        have hrem : ¬ remaining = 0 := by simp at hlen; omega
        rw [List.nil_append, parse_setpoints_loop, if_neg hrem]
        simp only [hd]
        rw [if_neg (by simp [hbad.1.1]), if_neg (not_not_intro hbad.1.2),
          if_pos hbad.2]
  | s :: pre, post, remaining, acc, hvalid, hlen => by
      obtain ⟨c, cs, hd, hdash, hcolon, hval⟩ := valid_token_parts (hvalid s (by simp))
      have hrem : ¬ remaining = 0 := by simp at hlen; omega
      have hcolon2 : (c :: cs).contains ':' = true := by rw [← hd]; exact hcolon
      rw [List.cons_append, parse_setpoints_loop, if_neg hrem]
      simp only [hd]
      rw [if_neg (by simp [hdash]), if_neg (not_not_intro hcolon2), if_neg hval]
      exact parse_loop_invalid hbad pre post (remaining - 1) _
        (fun x hx => hvalid x (by simp [hx])) (by simp at hlen ⊢; omega)

theorem pairwise_lt_of_sorted_nodup {l : List setpoint_t}
    (hs : List.Pairwise (fun a b => a.temp ≤ b.temp) l)
    (hn : (l.map setpoint_t.temp).Nodup) :
    List.Pairwise (fun a b : setpoint_t => a.temp < b.temp) l := by
  have hne : List.Pairwise (fun a b : setpoint_t => a.temp ≠ b.temp) l :=
    List.pairwise_map.mp hn
  exact (hs.and hne).imp fun hab => lt_of_le_of_ne hab.1 hab.2

/-- Claim C5, amended (the original claim fails for duplicate
temperatures, see `C5_counterexample`: the exchange sort of main.c lines
102-111 is *not* stable): for any two input orders of the same multiset
of at most 16 valid setpoint tokens whose temperatures are pairwise
distinct, `parse_setpoints` produces an identical curve, hence identical
evaluation at every temperature.  The 16-token bound is necessary: with
more than `MAX_SETPOINTS` tokens, different input orders make the
collection loop keep different 16-token prefixes, so the curves differ
even for distinct temperatures. -/
theorem C5_order_independent (toks1 toks2 : List String)
    (hperm : List.Perm toks1 toks2)
    (hvalid : ∀ s ∈ toks1, valid_token s)
    (hlen : toks1.length ≤ 16)
    (hnodup : ((toks1.map parse_tok).map setpoint_t.temp).Nodup) :
    parse_setpoints toks1 16 = parse_setpoints toks2 16 := by
  have hvalid2 : ∀ s ∈ toks2, valid_token s := fun s hs => hvalid s (hperm.mem_iff.mpr hs)
  have hlen2 : toks2.length ≤ 16 := by rw [← hperm.length_eq]; exact hlen
  rw [parse_setpoints, parse_setpoints,
      parse_loop_all_valid toks1 16 [] hvalid hlen,
      parse_loop_all_valid toks2 16 [] hvalid2 hlen2]
  show (if toks1.map parse_tok = [] then none
      else some (exchange_sort (toks1.map parse_tok))) =
    (if toks2.map parse_tok = [] then none
      else some (exchange_sort (toks2.map parse_tok)))
  have hm : List.Perm (toks1.map parse_tok) (toks2.map parse_tok) := hperm.map _
  by_cases hnil : toks1.map parse_tok = []
  · have hnil2 : toks2.map parse_tok = [] := ((hnil ▸ hm).symm).eq_nil
    rw [if_pos hnil, if_pos hnil2]
  · have hnil2 : ¬ toks2.map parse_tok = [] := by
      intro h
      rw [h] at hm
      exact hnil hm.eq_nil
    rw [if_neg hnil, if_neg hnil2]
    congr 1
    have hsp : List.Perm (exchange_sort (toks1.map parse_tok))
        (exchange_sort (toks2.map parse_tok)) :=
      (exchange_sort_perm _).trans (hm.trans (exchange_sort_perm _).symm)
    have hnd1 : ((exchange_sort (toks1.map parse_tok)).map setpoint_t.temp).Nodup :=
      (List.Perm.nodup_iff ((exchange_sort_perm _).map _)).mpr hnodup
    have hnd2 : ((exchange_sort (toks2.map parse_tok)).map setpoint_t.temp).Nodup :=
      (List.Perm.nodup_iff (((exchange_sort_perm _).trans hm.symm).map _)).mpr hnodup
    have hlt1 := pairwise_lt_of_sorted_nodup (exchange_sort_sorted (toks1.map parse_tok)) hnd1
    have hlt2 := pairwise_lt_of_sorted_nodup (exchange_sort_sorted (toks2.map parse_tok)) hnd2
    haveI : IsAntisymm setpoint_t (fun a b => a.temp < b.temp) :=
      ⟨fun a b h1 h2 => absurd h2 (not_lt.mpr (le_of_lt h1))⟩
    exact List.eq_of_perm_of_sorted hsp hlt1 hlt2

theorem C5_order_independent_witness :
    parse_setpoints ["80:90", "50:30", "70:60"] 16 =
      parse_setpoints ["50:30", "70:60", "80:90"] 16 :=
  C5_order_independent ["80:90", "50:30", "70:60"] ["50:30", "70:60", "80:90"]
    (by decide) (by decide) (by decide) (by decide)

/-- Claim C5, counterexample: the exchange sort is not stable, so two
orders of the same multiset of valid tokens containing the duplicate
temperature 50 produce different curves and different evaluation: the
temp-50 setpoints end up in opposite orders, and the curves evaluate
differently at temperature 40. -/
theorem C5_counterexample :
    parse_setpoints ["50:10", "50:90", "30:5"] 16 =
      some [⟨30, 5⟩, ⟨50, 90⟩, ⟨50, 10⟩] ∧
    parse_setpoints ["50:90", "50:10", "30:5"] 16 =
      some [⟨30, 5⟩, ⟨50, 10⟩, ⟨50, 90⟩] ∧
    parse_setpoints ["50:10", "50:90", "30:5"] 16 ≠
      parse_setpoints ["50:90", "50:10", "30:5"] 16 ∧
    interpolate_fan_speed 40 [⟨30, 5⟩, ⟨50, 90⟩, ⟨50, 10⟩] = 47 ∧
    interpolate_fan_speed 40 [⟨30, 5⟩, ⟨50, 10⟩, ⟨50, 90⟩] = 7 := by
  refine ⟨by decide, by decide, by decide, by decide, by decide⟩

/-- Claim C6, amended (the original claim fails for separator-free tokens,
see `C6_counterexample`): the whole construction fails, with no partial
curve, whenever any *examined* token (one preceded only by accepted valid
tokens, fewer than the 16-setpoint cap, before any `-`-option) contains a
separator and has a temperature that does not parse to a positive integer
or a duty above 100.  Tokens without a separator are silently skipped
rather than rejected. -/
theorem C6_invalid_token_fails (pre : List String) (bad : String) (post : List String)
    (hpre : ∀ s ∈ pre, valid_token s) (hlen : pre.length < 16)
    (hbad : invalid_token bad) :
    parse_setpoints (pre ++ bad :: post) 16 = none := by
  rw [parse_setpoints, parse_loop_invalid hbad pre post 16 [] hpre hlen]

theorem C6_invalid_token_fails_witness :
    parse_setpoints ["40:20", "50:150"] 16 = none ∧
    parse_setpoints ["0:50"] 16 = none :=
  ⟨C6_invalid_token_fails ["40:20"] "50:150" [] (by decide) (by decide) (by decide),
   C6_invalid_token_fails [] "0:50" [] (by decide) (by decide) (by decide)⟩

/-- Claim C6, counterexample: the token `"junk"` is malformed by the
claim's definition (it does not contain exactly one separator), yet
construction does not fail: the token is silently skipped and the partial
curve `[(50,30)]` is accepted. -/
theorem C6_counterexample :
    parse_setpoints ["junk", "50:30"] 16 = some [⟨50, 30⟩] ∧
    parse_setpoints ["junk", "50:30"] 16 ≠ none := by
  refine ⟨by decide, by decide⟩

/-- Claim C10 (confirmed): the collection loop stops after
`MAX_SETPOINTS = 16` accepted setpoints; any tokens after the sixteenth
valid one are ignored — the parse still succeeds (no error is reported)
and the constructed curve is exactly the one built from the first 16
tokens, whatever follows them. -/
theorem C10_extra_tokens_ignored (ts rest : List String)
    (hvalid : ∀ s ∈ ts, valid_token s) (hlen : ts.length = 16) :
    parse_setpoints (ts ++ rest) 16 = parse_setpoints ts 16 ∧
    (parse_setpoints ts 16).isSome := by
  have h1 : parse_setpoints_loop (ts ++ rest) 16 [] = some ([] ++ ts.map parse_tok) :=
    parse_loop_full ts rest 16 [] hvalid hlen
  have h2 : parse_setpoints_loop ts 16 [] = some ([] ++ ts.map parse_tok) :=
    parse_loop_all_valid ts 16 [] hvalid (by omega)
  have hne : ¬ ts.map parse_tok = [] := by
    cases ts with
    | nil => simp at hlen
    | cons a l => simp
  rw [parse_setpoints, parse_setpoints, h1, h2]
  show (if ts.map parse_tok = [] then none else some (exchange_sort (ts.map parse_tok))) =
      (if ts.map parse_tok = [] then none else some (exchange_sort (ts.map parse_tok))) ∧
    (if ts.map parse_tok = [] then none
      else some (exchange_sort (ts.map parse_tok))).isSome
  rw [if_neg hne]
  exact ⟨rfl, rfl⟩

theorem C10_extra_tokens_ignored_witness :
    parse_setpoints
      ["1:1", "2:2", "3:3", "4:4", "5:5", "6:6", "7:7", "8:8", "9:9", "10:10",
       "11:11", "12:12", "13:13", "14:14", "15:15", "16:16", "17:17"] 16 =
    parse_setpoints
      ["1:1", "2:2", "3:3", "4:4", "5:5", "6:6", "7:7", "8:8", "9:9", "10:10",
       "11:11", "12:12", "13:13", "14:14", "15:15", "16:16"] 16 ∧
    (parse_setpoints
      ["1:1", "2:2", "3:3", "4:4", "5:5", "6:6", "7:7", "8:8", "9:9", "10:10",
       "11:11", "12:12", "13:13", "14:14", "15:15", "16:16"] 16).isSome :=
  C10_extra_tokens_ignored
    ["1:1", "2:2", "3:3", "4:4", "5:5", "6:6", "7:7", "8:8", "9:9", "10:10",
     "11:11", "12:12", "13:13", "14:14", "15:15", "16:16"]
    ["17:17"] (by decide) (by decide)

theorem validate_step_err_mono (env : fanctl_env) (acc : List Nat × Nat) (d : Nat) :
    acc.2 ≤ (fanctl_validate_step env acc d).2 := by
  unfold fanctl_validate_step
  split
  · simp
  · split
    · simp
    · split
      · simp
      · simp
      · split <;> simp

theorem validate_foldl_err_mono (env : fanctl_env) :
    ∀ (ts : List Nat) (acc : List Nat × Nat),
    acc.2 ≤ (List.foldl (fanctl_validate_step env) acc ts).2
  | [], _ => le_refl _
  | t :: ts, acc =>
      le_trans (validate_step_err_mono env acc t)
        (validate_foldl_err_mono env ts (fanctl_validate_step env acc t))

theorem validate_step_bad {env : fanctl_env} {d : Nat}
    (hbad : device_ok env d = false) (acc : List Nat × Nat) :
    (fanctl_validate_step env acc d).2 = acc.2 + 1 := by
  unfold fanctl_validate_step
  by_cases h1 : env.device_count ≤ d
  · rw [if_pos h1]
  · rw [if_neg h1]
    by_cases h2 : env.handle_ok d = true
    · rw [if_neg (by simp [h2])]
      cases hk : env.num_fans_validate d with
      | none => rfl
      | some n =>
        cases n with
        | zero => rfl
        | succ m =>
          exfalso
          unfold device_ok at hbad
          rw [hk] at hbad
          simp [h2, show d < env.device_count by omega] at hbad
    · rw [if_pos (by simp [h2])]

theorem validate_err_pos {env : fanctl_env} {d : Nat} (hbad : device_ok env d = false) :
    ∀ (ts : List Nat) (acc : List Nat × Nat), d ∈ ts →
    0 < (List.foldl (fanctl_validate_step env) acc ts).2
  | t :: ts, acc, hmem => by
      rcases List.mem_cons.mp hmem with h | h
      · subst h
        refine lt_of_lt_of_le ?_ (validate_foldl_err_mono env ts _)
        rw [validate_step_bad hbad acc]
        omega
      · exact validate_err_pos hbad ts _ h

/-- Claim C8 (confirmed): if any targeted device fails the pre-loop
fanctl validation (index out of range, handle acquisition failure,
fan-count query failure, or zero fan count), `error_count` is nonzero, the
`controlled_device_count > 0 && error_count == 0` gate at main.c line 647
fails, the control loop never starts and the session issues no fan
actuation at all — including on devices that validated successfully. -/
theorem C8_fail_closed (env : fanctl_env) (sps : List setpoint_t) (targets : List Nat)
    (fuel : Nat) (h : ∃ d ∈ targets, device_ok env d = false) :
    (fanctl_session env sps targets fuel).1 = [] := by
  obtain ⟨d, hd, hbad⟩ := h
  have hpos : 0 < (fanctl_validate env targets).2 :=
    validate_err_pos hbad targets ([], 0) hd
  have hne : ¬ (0 < (fanctl_validate env targets).1.length ∧
      (fanctl_validate env targets).2 = 0) := by omega
  show (if 0 < (fanctl_validate env targets).1.length ∧
      (fanctl_validate env targets).2 = 0 then
      run_loop env sps (fanctl_validate env targets).1 fuel 0 else []) = []
  rw [if_neg hne]

theorem C8_fail_closed_witness :
    (∃ d ∈ [0, 1], device_ok env_c8 d = false) ∧
    (fanctl_session env_c8 [⟨50, 30⟩] [0, 1] 5).1 = [] :=
  ⟨by decide,
   C8_fail_closed env_c8 [⟨50, 30⟩] [0, 1] 5 (by decide)⟩

/-- Claim C1 (code bug): the restoration guarantee fails on the fatal
in-loop error path.  In `env_c1` validation succeeds (one device, one
fan), the loop starts, the first cycle reads temperature 60 and issues one
fan actuation, the fan-set call fails, `running` is cleared and the loop
exits — and the session's whole action trace is that single `setfan`:
no `restore` action is ever issued, because restoration lives only in
`signal_handler` (main.c lines 56-70) and no signal was delivered; the
comment at main.c line 718 ("Cleanup is handled by signal handler") is
false on this path.  The spec requires every exit path to attempt
restoration for every device and fan. -/
theorem C1_error_exit_skips_restore :
    fanctl_main env_c1 ["50:30"] [0] 5 = ([fan_act.setfan 0 0 30], 0) := by decide

/-- Claim C2, counterexample: in `env_c2` validation succeeds, the loop
starts, and the very first temperature read fails — an in-loop telemetry
error, after which the loop exits; yet the session's exit status is 0,
because `error_count` (main.c line 722, `return !!error_count`) is never
incremented on in-loop failures.  The claim requires a non-zero exit
status for any error, so the claimed equivalence fails. -/
theorem C2_counterexample :
    (fanctl_main env_c2 ["50:30"] [0] 5).2 = 0 ∧
    env_c2.temp_read 0 0 = none := by
  refine ⟨by decide, rfl⟩

/-- Claim C2, amended (the original claim fails for in-loop and
restoration errors, see `C2_counterexample`): the exit status is 0 if and
only if setpoint parsing succeeded and no error occurred during the
pre-loop per-device phase (`error_count = 0`); errors during the loop
(temperature reads, fan actuation) and during restoration never affect
the exit status. -/
theorem C2_exit_status (env : fanctl_env) (tokens : List String) (targets : List Nat)
    (fuel : Nat) :
    (fanctl_main env tokens targets fuel).2 = 0 ↔
      ((parse_setpoints tokens 16).isSome ∧ (fanctl_validate env targets).2 = 0) := by
  cases hp : parse_setpoints tokens 16 with
  | none => simp [fanctl_main, hp]
  | some sps =>
    simp only [fanctl_main, hp, Option.isSome_some, true_and]
    show (if (fanctl_validate env targets).2 = 0 then 0 else 1) = 0 ↔
      (fanctl_validate env targets).2 = 0
    by_cases hv : (fanctl_validate env targets).2 = 0
    · simp [hv]
    · simp [hv]
